import Mathlib

/-!
Verification of the provider-orchestration core of `captain-search`.

The Python source is shallowly embedded: pure string/list manipulation is
translated function by function; network calls, subprocesses and the
filesystem are passed in explicitly as oracle values (an `Except` outcome per
call, a list of existing paths for the clone cache), so that every embedded
function is executable and provable.
-/

namespace CaptainSearch

/-- A single search result, as in `providers/base.py` (`SearchResult`). -/
structure SearchResult where
  title : String
  url : String
  content : String := ""
  source : String
deriving Repr, DecidableEq

/-! ### Single-provider selection (`tools/search.py`) -/

/-- The weight table `Config.get_provider_weights()`: an association list from
provider name to weight in the dict's (insertion) iteration order. -/
abbrev WeightTable := List (String × Nat)

/-- `sum(weights.values())` in `_weighted_random_choice`. -/
def totalWeight (w : WeightTable) : Nat := (w.map Prod.snd).sum

/-- The accumulation loop of `_weighted_random_choice`: walk the table keeping
a cumulative sum and return the first name with `r <= cumulative`. -/
def weightedLoop (r : ℚ) : WeightTable → ℚ → Option String
  | [], _ => none
  | (name, weight) :: rest, cumulative =>
      let c := cumulative + (weight : ℚ)
      if r ≤ c then some name else weightedLoop r rest c

/-- `_weighted_random_choice(weights)` with the random draws made explicit:
`r` stands for the value of `random.uniform(0, total)` and `u` for the index
picked by `random.choice` in the all-zero-weights branch (uniform over
`0 .. length-1`).  An empty table raises `ValueError`. -/
def weightedRandomChoice (w : WeightTable) (r : ℚ) (u : Nat) : Except String String :=
  if w.isEmpty then .error "No providers available"
  else if totalWeight w = 0 then .ok ((w.map Prod.fst).getD u "")
  else
    match weightedLoop r w 0 with
    | some n => .ok n
    | none => .ok (((w.map Prod.fst).getLast?).getD "")

/-- The selection rule exactly as the specification words it: the first
provider whose cumulative weight STRICTLY exceeds the drawn value.  Used only
to compare the spec's wording with `weightedLoop` (the code's rule). -/
def specStrictLoop (r : ℚ) : WeightTable → ℚ → Option String
  | [], _ => none
  | (name, weight) :: rest, cumulative =>
      let c := cumulative + (weight : ℚ)
      if r < c then some name else specStrictLoop r rest c

/-- Sum of the first `k` weights, as a rational (the cumulative value the loop
has after `k` entries). -/
def cumWeight (w : WeightTable) (k : Nat) : ℚ := (((w.take k).map Prod.snd).sum : Nat)

/-- `weights[x]` lookup used by the sort key in `search_web`. -/
def lookupWeight (w : WeightTable) (x : String) : Nat := ((w.lookup x).getD 0)

/-- `sorted(weights.keys(), key=lambda x: weights[x], reverse=True)`:
Python's sort is stable, and with `reverse=True` equal keys keep their
original relative order; `List.mergeSort` with `weight b ≤ weight a` has
exactly this behavior. -/
def fallbackOrder (w : WeightTable) : List String :=
  (w.map Prod.fst).mergeSort (fun a b => lookupWeight w b ≤ lookupWeight w a)

/-- `providers_to_try = [selected] + [p for p in sorted_providers if p != selected]`. -/
def providersToTry (w : WeightTable) (selected : String) : List String :=
  selected :: (fallbackOrder w).filter (fun p => p ≠ selected)

/-! ### Multi-provider aggregation (`tools/search.py`, `search_multi`) -/

/-- The classified failure of one provider's task (`except` arms of
`search_provider` inside `search_multi`). -/
inductive ProviderFailure where
  | httpStatus (code : Nat)
  | timeout
  | otherException (typeName : String)
deriving Repr, DecidableEq

/-- `_handle_api_error`: actionable message per HTTP status. -/
def handleApiError (provider : String) (status : Nat) : String :=
  if status = 401 then
    provider ++ ": Invalid API key. Check your " ++ provider.toUpper ++ "_API_KEY."
  else if status = 403 then provider ++ ": Access forbidden. API key may lack permissions."
  else if status = 429 then provider ++ ": Rate limit exceeded. Try again later."
  else if 500 ≤ status then provider ++ ": Server error (" ++ toString status ++ "). Try again."
  else provider ++ ": HTTP " ++ toString status

/-- One task of the fan-out (`search_provider`): its own failure is caught and
classified, yielding the `(name, results, error)` triple. -/
def searchProviderTask (name : String) (outcome : Except ProviderFailure (List SearchResult)) :
    String × List SearchResult × Option String :=
  match outcome with
  | .ok rs => (name, rs, none)
  | .error (.httpStatus c) => (name, [], some (handleApiError name c))
  | .error .timeout => (name, [], some (name ++ ": Timed out"))
  | .error (.otherException tn) => (name, [], some (name ++ ": " ++ tn))

/-- The combine loop of `search_multi`: walk the per-provider triples in
candidate-set order, extending `all_results` and `providers_used` for each
provider with a non-empty result list and collecting every error. -/
def combineResults : List (String × List SearchResult × Option String) →
    List SearchResult × List String × List String
  | [] => ([], [], [])
  | (name, rs, err) :: rest =>
      let (allR, used, errs) := combineResults rest
      let allR := if rs.isEmpty then allR else rs ++ allR
      let used := if rs.isEmpty then used else name :: used
      let errs := match err with
        | some e => e :: errs
        | none => errs
      (allR, used, errs)

/-- The URL-deduplication pass of `search_multi` (`seen_urls` set,
first occurrence kept). -/
def dedupByUrl (seen : List String) : List SearchResult → List SearchResult
  | [] => []
  | r :: rest =>
      if r.url ∈ seen then dedupByUrl seen rest
      else r :: dedupByUrl (r.url :: seen) rest

/-- `if deduplicate and all_results:` guard around the dedup pass. -/
def mergeResults (deduplicate : Bool) (allR : List SearchResult) : List SearchResult :=
  if deduplicate && !allR.isEmpty then dedupByUrl [] allR else allR

/-- The three mutually exclusive renders of `search_multi`'s tail: a joined
error message, the bare "no results" sentinel, or the result list. -/
inductive MultiOutcome where
  | failure (msg : String)
  | noResults
  | results (rs : List SearchResult)
deriving Repr, DecidableEq

/-- The tail of `search_multi`: empty merged set with errors surfaces the
joined errors; empty with no errors is the "no results found" report. -/
def searchMultiOutcome (merged : List SearchResult) (errors : List String) : MultiOutcome :=
  if merged.isEmpty then
    if !errors.isEmpty then .failure (String.intercalate "; " errors)
    else .noResults
  else .results merged

/-- `search_multi` from the per-provider outcomes on: fan-out triples,
combine, optional dedup, render. -/
def searchMulti (deduplicate : Bool)
    (outcomes : List (String × Except ProviderFailure (List SearchResult))) : MultiOutcome :=
  let tasks := outcomes.map (fun p => searchProviderTask p.1 p.2)
  let (allR, _used, errors) := combineResults tasks
  searchMultiOutcome (mergeResults deduplicate allR) errors

/-! ### Python string primitives

Python strings are modelled through the character list underlying a Lean
`String`, so that the exact Python semantics (`strip`, `split`, `startswith`,
`removesuffix`, slicing) can be spelled out and reasoned about. -/

namespace Py

/-- `str.strip()`: drop whitespace from both ends. -/
def stripChars (l : List Char) : List Char :=
  ((l.dropWhile Char.isWhitespace).reverse.dropWhile Char.isWhitespace).reverse

/-- `str.strip()` on strings. -/
def strip (s : String) : String := ⟨stripChars s.data⟩

/-- `s.startswith(p)`. -/
def pyStartsWith (s p : String) : Bool := p.data.isPrefixOf s.data

/-- `s.split(c)` for a one-character separator (Python keeps empty pieces and
maps the empty string to `[""]`, exactly as `List.splitOn` does). -/
def splitChar (c : Char) (s : String) : List String := (s.data.splitOn c).map String.mk

/-- `s.split(c, 1)` when the separator occurs (`none` when it does not, in
which case Python returns a one-element list and a two-name unpack raises). -/
def splitOnceChars (c : Char) : List Char → Option (List Char × List Char)
  | [] => none
  | x :: xs =>
      if x = c then some ([], xs)
      else (splitOnceChars c xs).map (fun p => (x :: p.1, p.2))

/-- `s.split(c, 1)` on strings, as the pair around the first separator. -/
def splitOnce (c : Char) (s : String) : Option (String × String) :=
  (splitOnceChars c s.data).map (fun p => (⟨p.1⟩, ⟨p.2⟩))

/-- `s.strip("/")`: drop `/` from both ends. -/
def stripSlashes (s : String) : String :=
  ⟨((s.data.dropWhile (fun c => c = '/')).reverse.dropWhile (fun c => c = '/')).reverse⟩

/-- `s.removesuffix(suf)`. -/
def removeSuffix (s suf : String) : String :=
  if suf.data.isSuffixOf s.data then ⟨s.data.take (s.data.length - suf.data.length)⟩ else s

/-- Everything after the first `://` of a URL (the body `urlparse` splits into
netloc and path; query/fragment parts, absent from repo URLs, are not
modelled). -/
def afterScheme : List Char → List Char
  | ':' :: '/' :: '/' :: rest => rest
  | _ :: rest => afterScheme rest
  | [] => []

/-- `urlparse(s).netloc` for a `scheme://netloc/path` string. -/
def urlNetloc (s : String) : String := ⟨(afterScheme s.data).takeWhile (fun c => c ≠ '/')⟩

/-- `urlparse(s).path` for a `scheme://netloc/path` string. -/
def urlPath (s : String) : String := ⟨(afterScheme s.data).dropWhile (fun c => c ≠ '/')⟩

/-- `s[:500]`. -/
def take500 (s : String) : String := ⟨s.data.take 500⟩

/-- `len(s)` (`String.length` delegates to the same count). -/
def pyLen (s : String) : Nat := s.data.length

end Py

/-! ### Repository resolver and clone cache (`tools/code_search.py`) -/

/-- `_parse_repo`: parse a user-supplied repo identifier into
`(full_name, clone_url)`; local filesystem paths are rejected up front. -/
def parseRepo (repo : String) : Except String (String × String) :=
  let repo := Py.strip repo
  if Py.pyStartsWith repo "/" || Py.pyStartsWith repo "./" ||
      Py.pyStartsWith repo "../" || Py.pyStartsWith repo "~" then
    .error "repo must be a git URL or owner/repo"
  else
    let hostPath : Except String (String × String) :=
      if Py.pyStartsWith repo "git@" then
        match Py.splitOnce ':' repo with
        | none => .error "ValueError: not enough values to unpack"
        | some (hostPart, path) =>
            match Py.splitOnce '@' hostPart with
            | none => .error "IndexError: list index out of range"
            | some (_, host) => .ok (host, path)
      else if Py.pyStartsWith repo "http://" || Py.pyStartsWith repo "https://" then
        .ok (Py.urlNetloc repo, Py.urlPath repo)
      else .ok ("github.com", repo)
    match hostPath with
    | .error e => .error e
    | .ok (host, path) =>
        let parts := Py.splitChar '/' (Py.stripSlashes path)
        if parts.length < 2 then .error "repo must be in owner/repo format"
        else
          let owner := parts.getD 0 ""
          let name := Py.removeSuffix (parts.getD 1 "") ".git"
          .ok (owner ++ "/" ++ name,
               "https://" ++ host ++ "/" ++ owner ++ "/" ++ name ++ ".git")

/-- `full_name.replace("/", "__")` (single-character pattern). -/
def replaceSlashes : List Char → List Char
  | [] => []
  | c :: rest => if c = '/' then '_' :: '_' :: replaceSlashes rest else c :: replaceSlashes rest

/-- `_get_cache_path`: `REPO_CACHE_DIR / safe_name` with
`REPO_CACHE_DIR = Path.home() / ".cache" / "captain-search" / "repos"`;
`home` stands for `Path.home()`. -/
def getCachePath (home : String) (fullName : String) : String :=
  home ++ "/.cache/captain-search/repos/" ++ (⟨replaceSlashes fullName.data⟩ : String)

/-- `name.replace("__", "/")`: left-to-right, non-overlapping. -/
def replaceDunder : List Char → List Char
  | '_' :: '_' :: rest => '/' :: replaceDunder rest
  | c :: rest => c :: replaceDunder rest
  | [] => []

/-- `_repo_name_from_path` in `providers/noodl.py`: invert the `__` mangling
of the cache directory name. -/
def repoNameFromPath (dirName : String) : String :=
  if "__".data <:+: dirName.data then ⟨replaceDunder dirName.data⟩ else dirName

/-- The clone subprocess's observable outcome: exit status and captured
diagnostic output. -/
structure CloneEnv where
  exit : Nat
  diagnostic : String
deriving Repr, DecidableEq

/-- `_clone_repo`: given the set `fs` of directories existing under the cache
root, return the cache path, the updated set, and the number of `git clone`
subprocesses run.  A non-zero exit raises `CalledProcessError` carrying the
captured output (`check=True, capture_output=True`); a successful clone
creates the cache directory. -/
def cloneRepo (home : String) (env : CloneEnv) (fs : List String)
    (fullName cloneUrl : String) : Except String (String × List String × Nat) :=
  let cachePath := getCachePath home fullName
  if cachePath ∈ fs then .ok (cachePath, fs, 0)
  else if env.exit ≠ 0 then
    .error ("CalledProcessError: git clone --depth 1 " ++ cloneUrl ++ ": " ++ env.diagnostic)
  else .ok (cachePath, cachePath :: fs, 1)

/-! ### Code search aggregator (`tools/code_search.py`, `search_code`) -/

/-- `s[:500] + "..." if len(s) > 500 else s` used when rendering content. -/
def truncateContent (s : String) : String :=
  if 500 < Py.pyLen s then Py.take500 s ++ "..." else s

/-- `_format_results_section`: empty list renders to the empty string,
otherwise a `##` header followed by numbered entries, joined with newlines and
stripped. -/
def formatResultsSection (title : String) (results : List SearchResult) : String :=
  if results.isEmpty then ""
  else
    let entryLines : Nat × SearchResult → List String := fun (i, r) =>
      ["### " ++ toString i ++ ". " ++ r.title, "**URL:** " ++ r.url] ++
        (if r.content ≠ "" then ["\n" ++ truncateContent r.content ++ "\n"] else [""])
    let lines := ("## " ++ title) :: (results.enumFrom 1).flatMap entryLines
    Py.strip (String.intercalate "\n" lines)

/-- The outcomes of the external effects one `search_code` call can perform:
each code-search source's call result (`Except.error` = the call raised), the
local graph tool's availability and subprocess behavior, and the clone
cache's state.  The orchestration in `search_code` is deterministic in these. -/
structure CodeEnv where
  /-- `ExaMcpProvider.code_search` on a given query; the provider client is
  closed in a `finally`, so an exception propagates unchanged. -/
  exa : String → Except String (List SearchResult)
  /-- `DeepWikiProvider.ask_question (query, repo_full)`. -/
  deepwiki : String → String → Except String String
  /-- `GrepAppProvider.code_search (query, repo)`. -/
  grep : String → Option String → Except String (List SearchResult)
  /-- `NoodlProvider.is_available()` (`shutil.which("noodl")`). -/
  noodlAvailable : Bool
  /-- The `noodl search` subprocess's return code. -/
  noodlExit : Nat
  /-- `json` parse and extraction of the subprocess's stdout (`Except.error` =
  `json.loads` raised). -/
  noodlParsed : Except String (List SearchResult)
  /-- `Path.home()`. -/
  home : String
  /-- Directories currently existing under the clone cache root. -/
  fs : List String
  /-- Exit status of a `git clone` run by this call. -/
  cloneExit : Nat
  /-- Captured diagnostic output of that `git clone`. -/
  cloneDiagnostic : String

/-- `_exa_code_search`: scope-qualify the query when a repo is given, then
call the provider (whose failure propagates — the `try` has only `finally`). -/
def exaCodeSearch (env : CodeEnv) (query : String) (repoFull : Option String) :
    Except String (List SearchResult) :=
  let exaQuery := match repoFull with
    | some rf => query ++ " repo:" ++ rf
    | none => query
  env.exa exaQuery

/-- `_noodl_search` via `NoodlProvider.code_search`: missing executable or a
non-zero subprocess exit yield an empty list; a parse failure of the
subprocess's stdout propagates. -/
def noodlSearch (env : CodeEnv) : Except String (List SearchResult) :=
  if !env.noodlAvailable then .ok []
  else if env.noodlExit ≠ 0 then .ok []
  else env.noodlParsed

/-- `search_code(query, repo?)`: resolve and materialize the repo scope when
given, then query the sources in their fixed order, appending one section per
non-empty source output, and render the report.  Written exactly as the
source sequences it — in particular, no source call is wrapped in a handler. -/
def searchCode (env : CodeEnv) (query : String) (repo : Option String) :
    Except String String :=
  let scopeStep : Except String (Option String × Option String) :=
    match repo with
    | none => .ok (none, none)
    | some r =>
        match parseRepo r with
        | .error e => .error ("ValueError: " ++ e)
        | .ok (full, url) =>
            match cloneRepo env.home ⟨env.cloneExit, env.cloneDiagnostic⟩ env.fs full url with
            | .error e => .error e
            | .ok (path, _, _) => .ok (some full, some path)
  match scopeStep with
  | .error e => .error e
  | .ok (repoFull, repoPath) =>
      match exaCodeSearch env query repoFull with
      | .error e => .error e
      | .ok exaResults =>
          let exaSection := formatResultsSection "Exa Code Context" exaResults
          let sections : List String := if exaSection ≠ "" then [exaSection] else []
          let deepwikiStep : Except String (List String) :=
            match repoFull with
            | none => .ok sections
            | some full =>
                match env.deepwiki query full with
                | .error e => .error e
                | .ok answer =>
                    .ok (if answer ≠ "" then sections ++ ["## DeepWiki\n" ++ answer]
                      else sections)
          match deepwikiStep with
          | .error e => .error e
          | .ok sections =>
              match env.grep query repoFull with
              | .error e => .error e
              | .ok grepResults =>
                  let grepSection := formatResultsSection "grep.app" grepResults
                  let sections := if grepSection ≠ "" then sections ++ [grepSection]
                    else sections
                  let noodlStep : Except String (List String) :=
                    match repoPath with
                    | none => .ok sections
                    | some _ =>
                        match noodlSearch env with
                        | .error e => .error e
                        | .ok noodlResults =>
                            let noodlSection := formatResultsSection "Noodl" noodlResults
                            .ok (if noodlSection ≠ "" then sections ++ [noodlSection]
                              else sections)
                  match noodlStep with
                  | .error e => .error e
                  | .ok sections =>
                      if sections.isEmpty then .ok "No results found."
                      else .ok (Py.strip (String.intercalate "\n\n" sections))

/-- The report `search_code` assembles, written declaratively: keep the
non-empty sections in their fixed order, or fall back to the sentinel.  Used
to state what the imperative accumulation computes. -/
def renderReport (sections : List String) : String :=
  let kept := sections.filter (fun s => s ≠ "")
  if kept.isEmpty then "No results found."
  else Py.strip (String.intercalate "\n\n" kept)

/-! ### Provider result normalization (`providers/base.py`, `providers/noodl.py`) -/

/-- A raw upstream item: `none` models a field missing from the JSON dict;
`wellFormed = false` models an item whose values make the pydantic
`SearchResult` constructor raise (the `except` arm skips it). -/
structure RawItem where
  title : Option String := none
  url : Option String := none
  link : Option String := none
  content : Option String := none
  snippet : Option String := none
  wellFormed : Bool := true
deriving Repr, DecidableEq

/-- Python's `a or b` on an optional string: `None` and `""` are falsy. -/
def pyOr (a : Option String) (b : String) : String :=
  match a with
  | none => b
  | some s => if s = "" then b else s

/-- `SearchProvider._normalize_results`: build a `SearchResult` per item,
keep only those with a non-empty `url`, skip any item whose construction
raises. -/
def normalizeResults (source : String) : List RawItem → List SearchResult
  | [] => []
  | item :: rest =>
      if item.wellFormed then
        let r : SearchResult :=
          { title := item.title.getD ""
            url := pyOr item.url (item.link.getD "")
            content := pyOr item.content (item.snippet.getD "")
            source := source }
        if r.url ≠ "" then r :: normalizeResults source rest
        else normalizeResults source rest
      else normalizeResults source rest

/-- One symbol record in `noodl search --format json` output (absent JSON
fields are the empty string, matching `symbol.get(..., "")`... the `.get`
default). -/
structure NoodlSymbol where
  name : String := ""
  filePath : String := ""
  symbolType : String := ""
  content : String := ""
deriving Repr, DecidableEq

/-- One process record in `noodl` output. -/
structure NoodlProcess where
  symbols : List NoodlSymbol := []
deriving Repr, DecidableEq

/-- `NoodlProvider._parse_results`: one result per symbol that has both a
name and a file path, with a `file://` URL. -/
def noodlParseResults (data : List NoodlProcess) : List SearchResult :=
  (data.map (fun p =>
    p.symbols.filterMap (fun s =>
      if s.name = "" ∨ s.filePath = "" then none
      else
        some { title := if s.symbolType ≠ "" then s.symbolType ++ ": " ++ s.name else s.name
               url := "file://" ++ s.filePath
               content := if s.content ≠ "" then Py.take500 s.content else ""
               source := "noodl" }))).flatten

/-- Concrete environment exhibiting an individual code-search source failure:
the semantic source raises while the full-text source has a result. -/
def grepHit : SearchResult :=
  { title := "facebook/react/README.md", url := "https://github.com/facebook/react/blob/main/README.md",
    content := "", source := "grep_app" }

/-- Environment in which the semantic/code-context source raises and the
full-text source succeeds with `grepHit`. -/
def envExaFails : CodeEnv :=
  { exa := fun _ => .error "exa_mcp: HTTPStatusError"
    deepwiki := fun _ _ => .ok ""
    grep := fun _ _ => .ok [grepHit]
    noodlAvailable := false
    noodlExit := 0
    noodlParsed := .ok []
    home := "/root"
    fs := []
    cloneExit := 0
    cloneDiagnostic := "" }

/-- Environment in which every code-search source succeeds with no output
(and the local graph tool is absent). -/
def envAllEmpty : CodeEnv :=
  { exa := fun _ => .ok []
    deepwiki := fun _ _ => .ok ""
    grep := fun _ _ => .ok []
    noodlAvailable := false
    noodlExit := 0
    noodlParsed := .ok []
    home := "/root"
    fs := []
    cloneExit := 0
    cloneDiagnostic := "" }

/-- Two providers answering the same URL, for the dedup witness. -/
def dupTasks : List (String × List SearchResult × Option String) :=
  [("serper", [{ title := "A", url := "https://example.com/x", content := "", source := "serper" }], none),
   ("brave", [{ title := "B", url := "https://example.com/x", content := "", source := "brave" }], none)]

/-- Two providers both failing with transport errors, for the error witness. -/
def allFailOutcomes : List (String × Except ProviderFailure (List SearchResult)) :=
  [("serper", .error (.httpStatus 429)), ("brave", .error .timeout)]

/-- A raw upstream item carrying a title and a URL. -/
def sampleRawItem : RawItem :=
  { title := some "Example", url := some "https://example.com/a" }

/-- A `noodl` output process with one complete symbol. -/
def sampleNoodlProcess : NoodlProcess :=
  { symbols := [{ name := "f", filePath := "src/a.py", symbolType := "function", content := "" }] }

/-! ## Theorems -/

/-- `List.isPrefixOf` in terms of an explicit decomposition. -/
theorem isPrefixOf_iff_exists (p s : List Char) :
    p.isPrefixOf s = true ↔ ∃ t, s = p ++ t := by
  induction p generalizing s with
  | nil => simp [List.isPrefixOf]
  | cons a p ih =>
      cases s with
      | nil => simp [List.isPrefixOf]
      | cons b s =>
          simp only [List.isPrefixOf, Bool.and_eq_true, beq_iff_eq, ih, List.cons_append,
            List.cons.injEq]
          constructor
          · rintro ⟨rfl, t, rfl⟩; exact ⟨t, rfl, rfl⟩
          · rintro ⟨t, rfl, rfl⟩; exact ⟨rfl, t, rfl⟩

/-- Stripping whitespace keeps a leading run of non-whitespace characters. -/
theorem stripChars_keeps_head (p s : List Char) (hne : p ≠ [])
    (hnw : ∀ c ∈ p, c.isWhitespace = false) (h : ∃ t, s = p ++ t) :
    ∃ t, Py.stripChars s = p ++ t := by
  obtain ⟨t, rfl⟩ := h
  unfold Py.stripChars
  have hdrop : (p ++ t).dropWhile Char.isWhitespace = p ++ t := by
    cases p with
    | nil => exact absurd rfl hne
    | cons c cs =>
        rw [List.cons_append, List.dropWhile_cons]
        simp [hnw c (by simp)]
  rw [hdrop, List.reverse_append, List.dropWhile_append]
  by_cases hemp : (t.reverse.dropWhile Char.isWhitespace).isEmpty = true
  · rw [if_pos hemp]
    have hrev : p.reverse.dropWhile Char.isWhitespace = p.reverse := by
      cases hp : p.reverse with
      | nil => simp
      | cons c cs =>
          have hc : c ∈ p := by
            have : c ∈ p.reverse := by rw [hp]; exact List.mem_cons_self c cs
            simpa using this
          rw [List.dropWhile_cons]
          simp [hnw c hc]
    rw [hrev, List.reverse_reverse]
    exact ⟨[], by simp⟩
  · rw [if_neg hemp, List.reverse_append, List.reverse_reverse]
    exact ⟨(t.reverse.dropWhile Char.isWhitespace).reverse, rfl⟩

/-- `s.startswith(p)` survives `s.strip()` when `p` has no whitespace. -/
theorem pyStartsWith_strip (s p : String) (hne : p.data ≠ [])
    (hnw : ∀ c ∈ p.data, c.isWhitespace = false)
    (h : Py.pyStartsWith s p = true) : Py.pyStartsWith (Py.strip s) p = true := by
  unfold Py.pyStartsWith at h ⊢
  rw [isPrefixOf_iff_exists] at h ⊢
  exact stripChars_keeps_head _ _ hne hnw h

/-- C6: `_parse_repo` maps `"facebook/react"` to the canonical full name and
GitHub clone URL, and rejects every identifier starting with `/`, `./`, `../`
or `~` with the `ValueError` for local paths. -/
theorem parseRepo_resolves_and_rejects_local_paths :
    parseRepo "facebook/react" =
      .ok ("facebook/react", "https://github.com/facebook/react.git") ∧
    ∀ s : String,
      (Py.pyStartsWith s "/" = true ∨ Py.pyStartsWith s "./" = true ∨
        Py.pyStartsWith s "../" = true ∨ Py.pyStartsWith s "~" = true) →
      parseRepo s = .error "repo must be a git URL or owner/repo" := by
  refine ⟨rfl, ?_⟩
  intro s hs
  have hcond : (Py.pyStartsWith (Py.strip s) "/" || Py.pyStartsWith (Py.strip s) "./" ||
      Py.pyStartsWith (Py.strip s) "../" || Py.pyStartsWith (Py.strip s) "~") = true := by
    rcases hs with h | h | h | h
    · have := pyStartsWith_strip s "/" (by decide) (by decide) h
      simp [this]
    · have := pyStartsWith_strip s "./" (by decide) (by decide) h
      simp [this]
    · have := pyStartsWith_strip s "../" (by decide) (by decide) h
      simp [this]
    · have := pyStartsWith_strip s "~" (by decide) (by decide) h
      simp [this]
  simp only [parseRepo, hcond, if_true]

/-- C6 witness: `"facebook/react"` resolves, `"./local"` is rejected. -/
theorem parseRepo_resolves_and_rejects_local_paths_witness :
    parseRepo "./local" = .error "repo must be a git URL or owner/repo" ∧
    parseRepo "facebook/react" =
      .ok ("facebook/react", "https://github.com/facebook/react.git") :=
  ⟨parseRepo_resolves_and_rejects_local_paths.2 "./local" (Or.inr (Or.inl (by decide))),
    parseRepo_resolves_and_rejects_local_paths.1⟩

/-- C7: `_clone_repo` is idempotent — an existing cache directory is returned
unchanged with no clone; a fresh repo is cloned exactly once (the second
sequential call clones zero times); a failing clone raises an error carrying
the subprocess's diagnostic output. -/
theorem cloneRepo_idempotent (home : String) (env : CloneEnv) (fs : List String)
    (fullName cloneUrl : String) :
    (getCachePath home fullName ∈ fs →
      cloneRepo home env fs fullName cloneUrl = .ok (getCachePath home fullName, fs, 0)) ∧
    (getCachePath home fullName ∉ fs → env.exit = 0 →
      cloneRepo home env fs fullName cloneUrl =
        .ok (getCachePath home fullName, getCachePath home fullName :: fs, 1) ∧
      cloneRepo home env (getCachePath home fullName :: fs) fullName cloneUrl =
        .ok (getCachePath home fullName, getCachePath home fullName :: fs, 0)) ∧
    (getCachePath home fullName ∉ fs → env.exit ≠ 0 →
      ∃ msg, cloneRepo home env fs fullName cloneUrl = .error msg ∧
        ∃ preamble, msg = preamble ++ env.diagnostic) := by
  refine ⟨?_, ?_, ?_⟩
  · intro hmem
    simp [cloneRepo, hmem]
  · intro hmem hexit
    constructor
    · simp [cloneRepo, hmem, hexit]
    · simp [cloneRepo]
  · intro hmem hexit
    refine ⟨"CalledProcessError: git clone --depth 1 " ++ cloneUrl ++ ": " ++ env.diagnostic,
      ?_, "CalledProcessError: git clone --depth 1 " ++ cloneUrl ++ ": ", rfl⟩
    simp [cloneRepo, hmem, hexit]

/-- C7 witness: a fresh cache, a clean clone exit, and a failing exit, all at
concrete values. -/
theorem cloneRepo_idempotent_witness :
    (cloneRepo "/home/u" ⟨0, ""⟩ [] "facebook/react" "https://github.com/facebook/react.git" =
        .ok (getCachePath "/home/u" "facebook/react",
          getCachePath "/home/u" "facebook/react" :: [], 1) ∧
      cloneRepo "/home/u" ⟨0, ""⟩ [getCachePath "/home/u" "facebook/react"] "facebook/react"
          "https://github.com/facebook/react.git" =
        .ok (getCachePath "/home/u" "facebook/react",
          getCachePath "/home/u" "facebook/react" :: [], 0)) ∧
    ∃ msg,
      cloneRepo "/home/u" ⟨1, "fatal: repository not found"⟩ [] "facebook/react"
          "https://github.com/facebook/react.git" = .error msg ∧
      ∃ preamble, msg = preamble ++ "fatal: repository not found" :=
  ⟨(cloneRepo_idempotent "/home/u" ⟨0, ""⟩ [] "facebook/react"
      "https://github.com/facebook/react.git").2.1 (by decide) rfl,
    (cloneRepo_idempotent "/home/u" ⟨1, "fatal: repository not found"⟩ [] "facebook/react"
      "https://github.com/facebook/react.git").2.2 (by decide) (by decide)⟩

/-- C10: the cache-path mapping is not injective — `"a__b/c"` and `"a/b__c"`
are distinct full names mapped to the same cache directory, whatever the home
directory is. -/
theorem cachePath_not_injective (home : String) :
    getCachePath home "a__b/c" = getCachePath home "a/b__c" ∧
    ("a__b/c" : String) ≠ "a/b__c" :=
  ⟨rfl, by decide⟩

/-- C10 witness at a concrete home directory. -/
theorem cachePath_not_injective_witness :
    getCachePath "/root" "a__b/c" = getCachePath "/root" "a/b__c" ∧
    ("a__b/c" : String) ≠ "a/b__c" :=
  cachePath_not_injective "/root"

/-- The loop of `_weighted_random_choice` selects the first index whose
cumulative weight is greater than or equal to the draw, whenever the draw does
not exceed the remaining total. -/
theorem weightedLoop_finds (r : ℚ) (w : WeightTable) :
    ∀ (c : ℚ), w ≠ [] → r ≤ c + (totalWeight w : ℚ) →
      ∃ i, ∃ hi : i < w.length,
        weightedLoop r w c = some (w.get ⟨i, hi⟩).1 ∧
        r ≤ c + cumWeight w (i + 1) ∧ ∀ j < i, c + cumWeight w (j + 1) < r := by
  induction w with
  | nil => intro c hne _; exact absurd rfl hne
  | cons hd rest ih =>
      obtain ⟨n, wt⟩ := hd
      intro c _ hle
      by_cases h : r ≤ c + (wt : ℚ)
      · refine ⟨0, by simp, ?_, ?_, ?_⟩
        · simp [weightedLoop, h]
        · simpa [cumWeight] using h
        · intro j hj; exact absurd hj (Nat.not_lt_zero j)
      · have hrest : rest ≠ [] := by
          rintro rfl
          exact h (by simpa [totalWeight] using hle)
        have hle' : r ≤ (c + (wt : ℚ)) + (totalWeight rest : ℚ) := by
          have htot : (totalWeight ((n, wt) :: rest) : ℚ) = (wt : ℚ) + (totalWeight rest : ℚ) := by
            simp [totalWeight]
          rw [htot] at hle
          linarith
        obtain ⟨i, hi, hloop, hub, hlb⟩ := ih (c + (wt : ℚ)) hrest hle'
        have hcum : ∀ k, cumWeight ((n, wt) :: rest) (k + 1) = (wt : ℚ) + cumWeight rest k := by
          intro k
          simp [cumWeight]
        refine ⟨i + 1, by simpa using Nat.succ_lt_succ hi, ?_, ?_, ?_⟩
        · simpa [weightedLoop, h] using hloop
        · rw [hcum (i + 1)]
          linarith
        · intro j hj
          cases j with
          | zero =>
              have h1 : cumWeight ((n, wt) :: rest) 1 = (wt : ℚ) := by simp [cumWeight]
              rw [h1]
              linarith [not_le.mp h]
          | succ j =>
              have hj' : j < i := Nat.lt_of_succ_lt_succ hj
              rw [hcum (j + 1)]
              have := hlb j hj'
              linarith

/-- C2 counterexample: with the table `{a: 1, b: 1}` and the draw `1`
(inside `[0, totalWeight)`), the code selects `"a"` — whose cumulative weight
`1` equals but does not strictly exceed the draw — while the claimed
strictly-exceeds rule selects `"b"`. -/
theorem weightedRandomChoice_strict_counterexample :
    weightedRandomChoice [("a", 1), ("b", 1)] 1 0 = .ok "a" ∧
    specStrictLoop 1 [("a", 1), ("b", 1)] 0 = some "b" ∧
    (0 : ℚ) ≤ 1 ∧ (1 : ℚ) < (totalWeight [("a", 1), ("b", 1)] : ℚ) := by
  refine ⟨?_, ?_, by norm_num, ?_⟩
  · norm_num [weightedRandomChoice, weightedLoop, totalWeight]
  · norm_num [specStrictLoop]
  · norm_num [totalWeight]

/-- C2 amended: for a non-empty table and a draw `r` with
`0 ≤ r ≤ totalWeight`, the code selects the first provider whose cumulative
weight is greater than or equal to the draw (not strictly greater); when
`totalWeight = 0` it returns the uniformly drawn index's provider. -/
theorem weightedRandomChoice_spec (w : WeightTable) (r : ℚ) (u : Nat)
    (hne : w ≠ []) (_hr0 : 0 ≤ r) (hrt : r ≤ (totalWeight w : ℚ)) :
    (totalWeight w = 0 →
      weightedRandomChoice w r u = .ok ((w.map Prod.fst).getD u "")) ∧
    (totalWeight w ≠ 0 → ∃ i, ∃ hi : i < w.length,
      weightedRandomChoice w r u = .ok (w.get ⟨i, hi⟩).1 ∧
      r ≤ cumWeight w (i + 1) ∧ ∀ j < i, cumWeight w (j + 1) < r) := by
  have hF : w.isEmpty = false := by
    cases w with
    | nil => exact absurd rfl hne
    | cons a l => rfl
  constructor
  · intro h0
    simp [weightedRandomChoice, hF, h0]
  · intro hpos
    obtain ⟨i, hi, hloop, hub, hlb⟩ := weightedLoop_finds r w 0 hne (by simpa using hrt)
    refine ⟨i, hi, ?_, by simpa using hub, ?_⟩
    · simp [weightedRandomChoice, hF, hpos, hloop]
    · intro j hj
      simpa using hlb j hj

/-- C2 witness: table `{serper: 5, brave: 3}` with draw `6` selects `"brave"`,
the first provider whose cumulative weight (`8`) reaches the draw. -/
theorem weightedRandomChoice_spec_witness :
    ∃ i, ∃ hi : i < ([("serper", 5), ("brave", 3)] : WeightTable).length,
      weightedRandomChoice [("serper", 5), ("brave", 3)] 6 0 =
        .ok (([("serper", 5), ("brave", 3)] : WeightTable).get ⟨i, hi⟩).1 ∧
      (6 : ℚ) ≤ cumWeight [("serper", 5), ("brave", 3)] (i + 1) ∧
      ∀ j < i, cumWeight [("serper", 5), ("brave", 3)] (j + 1) < 6 :=
  (weightedRandomChoice_spec [("serper", 5), ("brave", 3)] 6 0 (by decide) (by norm_num)
    (by norm_num [totalWeight])).2 (by decide)

/-- Two sublists of a duplicate-free list that are permutations of each other
are equal (sublists inherit their relative order from the ambient list). -/
theorem eq_of_perm_sublist_nodup {α : Type} {l s₁ s₂ : List α} (hl : l.Nodup)
    (h₁ : s₁.Sublist l) (h₂ : s₂.Sublist l) (hp : s₁.Perm s₂) : s₁ = s₂ := by
  induction l generalizing s₁ s₂ with
  | nil =>
      rw [List.sublist_nil.mp h₁, List.sublist_nil.mp h₂]
  | cons x l ih =>
      obtain ⟨hx, hl'⟩ := List.nodup_cons.mp hl
      rcases List.sublist_cons_iff.mp h₁ with h₁' | ⟨r₁, rfl, hr₁⟩
      · rcases List.sublist_cons_iff.mp h₂ with h₂' | ⟨r₂, rfl, hr₂⟩
        · exact ih hl' h₁' h₂' hp
        · exact absurd (h₁'.subset (hp.symm.subset (List.mem_cons_self x r₂))) hx
      · rcases List.sublist_cons_iff.mp h₂ with h₂' | ⟨r₂, rfl, hr₂⟩
        · exact absurd (h₂'.subset (hp.subset (List.mem_cons_self x r₁))) hx
        · rw [ih hl' hr₁ hr₂ hp.cons_inv]

/-- C3: for a duplicate-free weight table and a drawn provider from it, the
try-sequence of `search_web` starts with the drawn provider, contains each
eligible provider exactly once, continues in descending weight order, and
breaks weight ties by the table's iteration order (the descending sort is
stable: filtering it to any fixed weight recovers the table's own order). -/
theorem providersToTry_spec (w : WeightTable) (selected : String)
    (hnd : (w.map Prod.fst).Nodup) (hsel : selected ∈ w.map Prod.fst) :
    (providersToTry w selected).head? = some selected ∧
    (providersToTry w selected).Nodup ∧
    (∀ p, p ∈ providersToTry w selected ↔ p ∈ w.map Prod.fst) ∧
    (providersToTry w selected).tail.Pairwise
      (fun a b => lookupWeight w b ≤ lookupWeight w a) ∧
    (∀ k, (fallbackOrder w).filter (fun p => lookupWeight w p = k) =
      (w.map Prod.fst).filter (fun p => lookupWeight w p = k)) := by
  have htrans : ∀ a b c : String,
      (decide (lookupWeight w b ≤ lookupWeight w a)) = true →
      (decide (lookupWeight w c ≤ lookupWeight w b)) = true →
      (decide (lookupWeight w c ≤ lookupWeight w a)) = true := by
    intro a b c hab hbc
    simp only [decide_eq_true_eq] at *
    omega
  have htotal : ∀ a b : String,
      ((decide (lookupWeight w b ≤ lookupWeight w a)) ||
        (decide (lookupWeight w a ≤ lookupWeight w b))) = true := by
    intro a b
    simp only [Bool.or_eq_true, decide_eq_true_eq]
    omega
  have hperm : (fallbackOrder w).Perm (w.map Prod.fst) :=
    List.mergeSort_perm (w.map Prod.fst) _
  have hnd' : (fallbackOrder w).Nodup := hperm.nodup_iff.mpr hnd
  have hsorted : (fallbackOrder w).Pairwise
      (fun a b => (decide (lookupWeight w b ≤ lookupWeight w a)) = true) :=
    List.sorted_mergeSort htrans htotal (w.map Prod.fst)
  refine ⟨rfl, ?_, ?_, ?_, ?_⟩
  · rw [providersToTry, List.nodup_cons]
    constructor
    · intro hmem
      have := (List.mem_filter.mp hmem).2
      simp at this
    · exact hnd'.filter _
  · intro p
    rw [providersToTry]
    simp only [List.mem_cons, List.mem_filter, hperm.mem_iff, decide_eq_true_eq]
    constructor
    · rintro (rfl | ⟨hmem, _⟩)
      · exact hsel
      · exact hmem
    · intro hmem
      by_cases hp : p = selected
      · exact Or.inl hp
      · exact Or.inr ⟨hmem, by simpa using hp⟩
  · have hs : (providersToTry w selected).tail.Pairwise
        (fun a b => (decide (lookupWeight w b ≤ lookupWeight w a)) = true) := by
      rw [providersToTry]
      exact List.Pairwise.sublist (List.filter_sublist _) hsorted
    exact hs.imp (fun h => by simpa using h)
  · intro k
    have hR1 : ((w.map Prod.fst).filter (fun p => lookupWeight w p = k)).Sublist
        (w.map Prod.fst) := List.filter_sublist _
    have hRpair : ((w.map Prod.fst).filter (fun p => lookupWeight w p = k)).Pairwise
        (fun a b => (decide (lookupWeight w b ≤ lookupWeight w a)) = true) := by
      apply List.pairwise_of_forall_mem_list
      intro a ha b hb
      have hak := (List.mem_filter.mp ha).2
      have hbk := (List.mem_filter.mp hb).2
      simp only [decide_eq_true_eq] at hak hbk ⊢
      omega
    have hsub : ((w.map Prod.fst).filter (fun p => lookupWeight w p = k)).Sublist
        (fallbackOrder w) := List.sublist_mergeSort htrans htotal hRpair hR1
    have hlsub : ((fallbackOrder w).filter (fun p => lookupWeight w p = k)).Sublist
        (fallbackOrder w) := List.filter_sublist _
    have hpp : ((fallbackOrder w).filter (fun p => lookupWeight w p = k)).Perm
        ((w.map Prod.fst).filter (fun p => lookupWeight w p = k)) := hperm.filter _
    exact eq_of_perm_sublist_nodup hnd' hlsub hsub hpp

/-- C3 witness: table `{serper: 50, brave: 30, tavily: 30}` with drawn
provider `"brave"`. -/
theorem providersToTry_spec_witness :
    (providersToTry [("serper", 50), ("brave", 30), ("tavily", 30)] "brave").head? =
      some "brave" ∧
    (providersToTry [("serper", 50), ("brave", 30), ("tavily", 30)] "brave").Nodup ∧
    (providersToTry [("serper", 50), ("brave", 30), ("tavily", 30)] "brave").tail.Pairwise
      (fun a b => lookupWeight [("serper", 50), ("brave", 30), ("tavily", 30)] b ≤
        lookupWeight [("serper", 50), ("brave", 30), ("tavily", 30)] a) :=
  ⟨(providersToTry_spec [("serper", 50), ("brave", 30), ("tavily", 30)] "brave"
      (by decide) (by decide)).1,
    (providersToTry_spec [("serper", 50), ("brave", 30), ("tavily", 30)] "brave"
      (by decide) (by decide)).2.1,
    (providersToTry_spec [("serper", 50), ("brave", 30), ("tavily", 30)] "brave"
      (by decide) (by decide)).2.2.2.1⟩

/-- A string with non-empty character data is not the empty string. -/
theorem string_ne_empty_of_data (s : String) (h : s.data ≠ []) : s ≠ "" := by
  intro he
  rw [he] at h
  exact h rfl

/-- Appending keeps a non-empty right part non-empty. -/
theorem append_ne_empty_right (a b : String) (hb : b ≠ "") : (a ++ b) ≠ "" := by
  apply string_ne_empty_of_data
  rw [String.data_append]
  intro h
  rcases List.append_eq_nil.mp h with ⟨-, hbd⟩
  exact hb (by cases b with | mk d => rw [show d = [] from hbd])

/-- Appending keeps a non-empty left part non-empty. -/
theorem append_ne_empty_left (a b : String) (ha : a ≠ "") : (a ++ b) ≠ "" := by
  apply string_ne_empty_of_data
  rw [String.data_append]
  intro h
  rcases List.append_eq_nil.mp h with ⟨had, -⟩
  exact ha (by cases a with | mk d => rw [show d = [] from had])

/-- Every classified per-provider error message of `search_multi` is
non-empty (they all start with `"{name}: "`). -/
theorem providerError_ne_empty (name : String)
    (out : Except ProviderFailure (List SearchResult)) (e : String)
    (h : (searchProviderTask name out).2.2 = some e) : e ≠ "" := by
  cases out with
  | ok rs => simp [searchProviderTask] at h
  | error f =>
      cases f with
      | httpStatus c =>
          simp only [searchProviderTask, Option.some.injEq] at h
          subst h
          unfold handleApiError
          split_ifs
          · exact append_ne_empty_right _ "_API_KEY." (by decide)
          · exact append_ne_empty_right _ ": Access forbidden. API key may lack permissions." (by decide)
          · exact append_ne_empty_right _ ": Rate limit exceeded. Try again later." (by decide)
          · exact append_ne_empty_right _ "). Try again." (by decide)
          · exact append_ne_empty_left _ _ (append_ne_empty_right _ ": HTTP " (by decide))
      | timeout =>
          simp only [searchProviderTask, Option.some.injEq] at h
          subst h
          exact append_ne_empty_right _ _ (by decide)
      | otherException tn =>
          simp only [searchProviderTask, Option.some.injEq] at h
          subst h
          exact append_ne_empty_left _ _ (append_ne_empty_right _ _ (by decide))

/-- Every error collected by the combine loop came from some task's error
slot. -/
theorem combineResults_errors_mem
    (tasks : List (String × List SearchResult × Option String)) :
    ∀ e ∈ (combineResults tasks).2.2, ∃ t ∈ tasks, t.2.2 = some e := by
  induction tasks with
  | nil => simp [combineResults]
  | cons t rest ih =>
      obtain ⟨name, rs, err⟩ := t
      rcases hcr : combineResults rest with ⟨allR, used, errs⟩
      have ih' : ∀ e ∈ errs, ∃ t ∈ rest, t.2.2 = some e := by
        intro e he
        exact ih e (by rw [hcr]; exact he)
      intro e he
      cases err with
      | none =>
          simp only [combineResults, hcr] at he
          obtain ⟨t, ht, hte⟩ := ih' e (by simpa using he)
          exact ⟨t, List.mem_cons_of_mem _ ht, hte⟩
      | some e0 =>
          simp only [combineResults, hcr] at he
          rcases List.mem_cons.mp (by simpa using he) with rfl | he'
          · exact ⟨(name, rs, some e), List.mem_cons_self _ _, rfl⟩
          · obtain ⟨t, ht, hte⟩ := ih' e he'
            exact ⟨t, List.mem_cons_of_mem _ ht, hte⟩

/-- All errors collected by the combine loop over classified task outcomes
are non-empty. -/
theorem combineResults_errors_ne_empty
    (outcomes : List (String × Except ProviderFailure (List SearchResult))) :
    ∀ e ∈ (combineResults (outcomes.map (fun p => searchProviderTask p.1 p.2))).2.2,
      e ≠ "" := by
  intro e he
  obtain ⟨t, ht, hte⟩ := combineResults_errors_mem _ e he
  obtain ⟨p, _, rfl⟩ := List.mem_map.mp ht
  exact providerError_ne_empty p.1 p.2 e hte

/-- `String.intercalate.go` never shrinks a non-empty accumulator to the
empty string. -/
theorem intercalate_go_ne_empty (sep : String) (as : List String) :
    ∀ acc : String, acc ≠ "" → String.intercalate.go acc sep as ≠ "" := by
  induction as with
  | nil => intro acc hacc; simpa [String.intercalate.go] using hacc
  | cons b bs ih =>
      intro acc hacc
      rw [String.intercalate.go]
      exact ih _ (append_ne_empty_left _ _ (append_ne_empty_left _ _ hacc))

/-- Joining a non-empty list of non-empty strings yields a non-empty string. -/
theorem intercalate_ne_empty (es : List String) (hne : es ≠ [])
    (h : ∀ e ∈ es, e ≠ "") : String.intercalate "; " es ≠ "" := by
  cases es with
  | nil => exact absurd rfl hne
  | cons a as =>
      rw [String.intercalate]
      exact intercalate_go_ne_empty "; " as a (h a (List.mem_cons_self a as))

/-- The dedup pass returns a subsequence of its input. -/
theorem dedupByUrl_sublist (seen : List String) (l : List SearchResult) :
    (dedupByUrl seen l).Sublist l := by
  induction l generalizing seen with
  | nil => simp [dedupByUrl]
  | cons r rest ih =>
      rw [dedupByUrl]
      by_cases h : r.url ∈ seen
      · rw [if_pos h]
        exact (ih seen).cons r
      · rw [if_neg h]
        exact (ih (r.url :: seen)).cons₂ r

/-- The dedup pass keeps, for every URL not already seen, exactly the
concatenation's first result with that URL. -/
theorem dedupByUrl_find (seen : List String) (l : List SearchResult) :
    ∀ u : String, u ∉ seen →
      (dedupByUrl seen l).find? (fun x => x.url = u) = l.find? (fun x => x.url = u) := by
  induction l generalizing seen with
  | nil => intro u _; rfl
  | cons r rest ih =>
      intro u hu
      rw [dedupByUrl]
      by_cases h : r.url ∈ seen
      · rw [if_pos h]
        have hne : r.url ≠ u := by
          rintro rfl
          exact hu h
        rw [List.find?_cons_of_neg _ (by simpa using hne)]
        exact ih seen u hu
      · rw [if_neg h]
        by_cases hru : r.url = u
        · rw [List.find?_cons_of_pos _ (by simpa using hru),
            List.find?_cons_of_pos _ (by simpa using hru)]
        · rw [List.find?_cons_of_neg _ (by simpa using hru),
            List.find?_cons_of_neg _ (by simpa using hru)]
          apply ih
          simp only [List.mem_cons]
          rintro (rfl | hs)
          · exact hru rfl
          · exact hu hs

/-- The dedup pass yields pairwise-distinct URLs, all outside `seen`. -/
theorem dedupByUrl_nodup (seen : List String) (l : List SearchResult) :
    ((dedupByUrl seen l).map (fun r => r.url)).Nodup ∧
    ∀ r ∈ dedupByUrl seen l, r.url ∉ seen := by
  induction l generalizing seen with
  | nil => simp [dedupByUrl]
  | cons r rest ih =>
      simp only [dedupByUrl]
      by_cases h : r.url ∈ seen
      · simp only [if_pos h]
        exact ih seen
      · simp only [if_neg h]
        obtain ⟨hnd, hmem⟩ := ih (r.url :: seen)
        refine ⟨?_, ?_⟩
        · rw [List.map_cons, List.nodup_cons]
          refine ⟨?_, hnd⟩
          intro hmem'
          obtain ⟨x, hx, hxu⟩ := List.mem_map.mp hmem'
          have hnx := hmem x hx
          rw [hxu] at hnx
          exact hnx (List.mem_cons_self _ _)
        · intro x hx
          rcases List.mem_cons.mp hx with rfl | hx'
          · exact h
          · intro hxs
            exact (hmem x hx') (List.mem_cons.mpr (Or.inr hxs))

/-- The combine loop concatenates the per-provider result lists in
candidate-set order. -/
theorem combineResults_fst (tasks : List (String × List SearchResult × Option String)) :
    (combineResults tasks).1 = (tasks.map (fun t => t.2.1)).flatten := by
  induction tasks with
  | nil => rfl
  | cons t rest ih =>
      obtain ⟨name, rs, err⟩ := t
      rcases hcr : combineResults rest with ⟨allR, used, errs⟩
      have ih' : allR = (rest.map (fun t => t.2.1)).flatten := by
        rw [hcr] at ih
        simpa using ih
      simp only [combineResults, hcr, List.map_cons, List.flatten_cons]
      by_cases h : rs.isEmpty
      · rw [List.isEmpty_iff.mp h]
        simpa using ih'
      · simp [h, ih']

/-- C4: multi-provider aggregation concatenates per-provider results in
candidate-set order; with `deduplicate` the merged output has pairwise
distinct URLs and keeps, in first-seen order, the concatenation's first
result for every URL (first provider in iteration order wins); without
`deduplicate` the concatenation is returned untouched, duplicates included. -/
theorem searchMulti_dedup_spec (dd : Bool)
    (tasks : List (String × List SearchResult × Option String)) :
    (combineResults tasks).1 = (tasks.map (fun t => t.2.1)).flatten ∧
    (dd = true →
      ((mergeResults dd (combineResults tasks).1).map (fun r => r.url)).Nodup ∧
      (mergeResults dd (combineResults tasks).1).Sublist (combineResults tasks).1 ∧
      ∀ u : String,
        (mergeResults dd (combineResults tasks).1).find? (fun r => r.url = u) =
          (combineResults tasks).1.find? (fun r => r.url = u)) ∧
    (dd = false → mergeResults dd (combineResults tasks).1 = (combineResults tasks).1) := by
  refine ⟨combineResults_fst tasks, ?_, ?_⟩
  · rintro rfl
    by_cases hemp : (combineResults tasks).1.isEmpty
    · have hm : mergeResults true (combineResults tasks).1 = (combineResults tasks).1 := by
        simp [mergeResults, hemp]
      rw [hm, List.isEmpty_iff.mp hemp]
      simp
    · have hm : mergeResults true (combineResults tasks).1 =
          dedupByUrl [] (combineResults tasks).1 := by
        simp [mergeResults, hemp]
      rw [hm]
      exact ⟨(dedupByUrl_nodup [] _).1, dedupByUrl_sublist [] _,
        fun u => dedupByUrl_find [] _ u (by simp)⟩
  · rintro rfl
    simp [mergeResults]

/-- `search_multi` as the render of its combine/merge pipeline. -/
theorem searchMulti_eq (dd : Bool)
    (outcomes : List (String × Except ProviderFailure (List SearchResult))) :
    searchMulti dd outcomes =
      searchMultiOutcome
        (mergeResults dd
          (combineResults (outcomes.map (fun p => searchProviderTask p.1 p.2))).1)
        (combineResults (outcomes.map (fun p => searchProviderTask p.1 p.2))).2.2 := by
  unfold searchMulti
  rcases hcr : combineResults (outcomes.map (fun p => searchProviderTask p.1 p.2))
    with ⟨allR, used, errs⟩
  rfl

/-- C5: when the merged result set is empty and some provider recorded an
error, `search_multi` surfaces the joined, non-empty error string; when it is
empty with zero errors it reports the "no results found" sentinel; and the
sentinel appears only in the zero-errors, zero-results case. -/
theorem searchMulti_empty_spec (dd : Bool)
    (outcomes : List (String × Except ProviderFailure (List SearchResult))) :
    (mergeResults dd (combineResults (outcomes.map (fun p => searchProviderTask p.1 p.2))).1 = [] →
      (combineResults (outcomes.map (fun p => searchProviderTask p.1 p.2))).2.2 ≠ [] →
      ∃ s, searchMulti dd outcomes = .failure s ∧ s ≠ "") ∧
    (mergeResults dd (combineResults (outcomes.map (fun p => searchProviderTask p.1 p.2))).1 = [] →
      (combineResults (outcomes.map (fun p => searchProviderTask p.1 p.2))).2.2 = [] →
      searchMulti dd outcomes = .noResults) ∧
    (searchMulti dd outcomes = .noResults →
      mergeResults dd (combineResults (outcomes.map (fun p => searchProviderTask p.1 p.2))).1 = [] ∧
      (combineResults (outcomes.map (fun p => searchProviderTask p.1 p.2))).2.2 = []) := by
  rw [searchMulti_eq]
  refine ⟨?_, ?_, ?_⟩
  · intro hm he
    refine ⟨String.intercalate "; "
      (combineResults (outcomes.map (fun p => searchProviderTask p.1 p.2))).2.2, ?_, ?_⟩
    · rw [hm]
      simp only [searchMultiOutcome, List.isEmpty_nil, if_true]
      rw [if_pos (by simpa using he)]
    · exact intercalate_ne_empty _ he (combineResults_errors_ne_empty outcomes)
  · intro hm he
    rw [hm, he]
    rfl
  · intro h
    unfold searchMultiOutcome at h
    by_cases hm : (mergeResults dd
        (combineResults (outcomes.map (fun p => searchProviderTask p.1 p.2))).1).isEmpty
    · rw [if_pos hm] at h
      by_cases he : ((combineResults (outcomes.map (fun p => searchProviderTask p.1 p.2))).2.2).isEmpty
      · exact ⟨List.isEmpty_iff.mp hm, List.isEmpty_iff.mp he⟩
      · rw [if_pos (by simpa using he)] at h
        exact absurd h (by simp)
    · rw [if_neg hm] at h
      exact absurd h (by simp)

/-- C4 witness: two providers answering the same URL — deduplicated output
has distinct URLs and is a subsequence; without dedup both survive. -/
theorem searchMulti_dedup_spec_witness :
    ((mergeResults true (combineResults dupTasks).1).map (fun r => r.url)).Nodup ∧
    (mergeResults true (combineResults dupTasks).1).Sublist (combineResults dupTasks).1 ∧
    mergeResults false (combineResults dupTasks).1 = (combineResults dupTasks).1 :=
  ⟨((searchMulti_dedup_spec true dupTasks).2.1 rfl).1,
    ((searchMulti_dedup_spec true dupTasks).2.1 rfl).2.1,
    (searchMulti_dedup_spec false dupTasks).2.2 rfl⟩

/-- C5 witness: both providers fail with transport errors — the aggregate is
a non-empty joined error string, not the "no results" sentinel. -/
theorem searchMulti_empty_spec_witness :
    ∃ s, searchMulti true allFailOutcomes = .failure s ∧ s ≠ "" :=
  (searchMulti_empty_spec true allFailOutcomes).1 (by decide) (by decide)

/-- C8: no normalization path constructs a result with an empty URL — the
base `_normalize_results` keeps only items whose resolved URL is non-empty
(items that raise are skipped, never surfaced), and noodl's parser emits only
`file://`-prefixed URLs for symbols that have a file path. -/
theorem normalized_urls_ne_empty :
    (∀ (source : String) (raw : List RawItem),
      ∀ r ∈ normalizeResults source raw, r.url ≠ "") ∧
    (∀ data : List NoodlProcess, ∀ r ∈ noodlParseResults data, r.url ≠ "") := by
  constructor
  · intro source raw
    induction raw with
    | nil => simp [normalizeResults]
    | cons item rest ih =>
        intro r hr
        simp only [normalizeResults] at hr
        by_cases hw : item.wellFormed
        · rw [if_pos hw] at hr
          by_cases hu : pyOr item.url (item.link.getD "") ≠ ""
          · rw [if_pos (by simpa using hu)] at hr
            rcases List.mem_cons.mp hr with rfl | hr'
            · simpa using hu
            · exact ih r hr'
          · rw [if_neg (by simpa using hu)] at hr
            exact ih r hr
        · rw [if_neg hw] at hr
          exact ih r hr
  · intro data r hr
    unfold noodlParseResults at hr
    obtain ⟨l, hl, hrl⟩ := List.mem_flatten.mp hr
    obtain ⟨p, _, rfl⟩ := List.mem_map.mp hl
    obtain ⟨s, _, hsome⟩ := List.mem_filterMap.mp hrl
    by_cases hc : s.name = "" ∨ s.filePath = ""
    · rw [if_pos hc] at hsome
      exact absurd hsome (by simp)
    · rw [if_neg hc] at hsome
      have hr' := Option.some.inj hsome
      rw [← hr']
      exact append_ne_empty_left "file://" _ (by decide)

/-- C8 witness: a complete raw item and a complete noodl symbol both produce
results with non-empty URLs. -/
theorem normalized_urls_ne_empty_witness :
    ({ title := "Example", url := "https://example.com/a", content := "",
        source := "serper" } : SearchResult).url ≠ "" ∧
    ({ title := "function: f", url := "file://src/a.py", content := "",
        source := "noodl" } : SearchResult).url ≠ "" :=
  ⟨normalized_urls_ne_empty.1 "serper" [sampleRawItem] _ (by decide),
    normalized_urls_ne_empty.2 [sampleNoodlProcess] _ (by decide)⟩

/-- C1 counterexample: an exception of the semantic/code-context source is
not contained — `search_code` itself fails with it, even though the full-text
source had results that would have rendered a non-empty section. -/
theorem searchCode_aborts_on_source_failure :
    searchCode envExaFails "query" none = .error "exa_mcp: HTTPStatusError" ∧
    envExaFails.grep "query" none = .ok [grepHit] ∧
    formatResultsSection "grep.app" [grepHit] ≠ "" := by
  refine ⟨rfl, rfl, by decide⟩

/-- C1 amended: an exception raised by the semantic/code-context, repo Q&A or
full-text source propagates out of `search_code` unchanged, aborting the
remaining sources; only the local graph source's missing executable or
non-zero subprocess exit is contained as "no section". -/
theorem searchCode_failure_propagation (env : CodeEnv) (query : String) (e : String) :
    (env.exa query = .error e → searchCode env query none = .error e) ∧
    (∀ rs, env.exa query = .ok rs → env.grep query none = .error e →
      searchCode env query none = .error e) ∧
    (∀ r full url, parseRepo r = .ok (full, url) →
      getCachePath env.home full ∈ env.fs →
      ∀ rs, env.exa (query ++ " repo:" ++ full) = .ok rs →
      env.deepwiki query full = .error e →
      searchCode env query (some r) = .error e) ∧
    (env.noodlAvailable = false → noodlSearch env = .ok []) ∧
    (env.noodlExit ≠ 0 → noodlSearch env = .ok []) := by
  refine ⟨?_, ?_, ?_, ?_, ?_⟩
  · intro hexa
    simp [searchCode, exaCodeSearch, hexa]
  · intro rs hexa hgrep
    simp [searchCode, exaCodeSearch, hexa, hgrep]
  · intro r full url hparse hmem rs hexa hdw
    simp [searchCode, exaCodeSearch, hparse, cloneRepo, hmem, hexa, hdw]
  · intro hav
    simp [noodlSearch, hav]
  · intro hexit
    simp [noodlSearch, hexit]

/-- C1 amended witness: with the failing semantic source, `search_code`
fails; with the local graph tool absent, its source is an empty section. -/
theorem searchCode_failure_propagation_witness :
    searchCode envExaFails "q" none = .error "exa_mcp: HTTPStatusError" ∧
    noodlSearch envExaFails = .ok [] :=
  ⟨(searchCode_failure_propagation envExaFails "q" "exa_mcp: HTTPStatusError").1 rfl,
    (searchCode_failure_propagation envExaFails "q" "exa_mcp: HTTPStatusError").2.2.2.1 rfl⟩

/-- C9: when the sources return (no exception), `search_code` concatenates
exactly the non-empty sections in the fixed order — semantic, repo Q&A,
full-text, local graph — separated by a blank line, and returns the literal
`"No results found."` sentinel when every source produced nothing. -/
theorem searchCode_report_spec (env : CodeEnv) (query : String) :
    (∀ ers grs, env.exa query = .ok ers → env.grep query none = .ok grs →
      searchCode env query none = .ok (renderReport
        [formatResultsSection "Exa Code Context" ers,
         formatResultsSection "grep.app" grs])) ∧
    (env.exa query = .ok [] → env.grep query none = .ok [] →
      searchCode env query none = .ok "No results found.") ∧
    (∀ r full url ers ans grs nrs,
      parseRepo r = .ok (full, url) → getCachePath env.home full ∈ env.fs →
      env.exa (query ++ " repo:" ++ full) = .ok ers →
      env.deepwiki query full = .ok ans →
      env.grep query (some full) = .ok grs →
      env.noodlAvailable = true → env.noodlExit = 0 → env.noodlParsed = .ok nrs →
      searchCode env query (some r) = .ok (renderReport
        [formatResultsSection "Exa Code Context" ers,
         if ans ≠ "" then "## DeepWiki\n" ++ ans else "",
         formatResultsSection "grep.app" grs,
         formatResultsSection "Noodl" nrs])) := by
  refine ⟨?_, ?_, ?_⟩
  · intro ers grs hexa hgrep
    by_cases h1 : formatResultsSection "Exa Code Context" ers = "" <;>
      by_cases h3 : formatResultsSection "grep.app" grs = "" <;>
        simp [searchCode, exaCodeSearch, hexa, hgrep, renderReport, h1, h3]
  · intro hexa hgrep
    simp [searchCode, exaCodeSearch, hexa, hgrep, formatResultsSection]
  · intro r full url ers ans grs nrs hparse hmem hexa hdw hgrep hav hexit hparsed
    have hdwne : ∀ a : String, a ≠ "" → ("## DeepWiki\n" ++ a) ≠ "" := fun a _ =>
      append_ne_empty_left _ _ (by decide)
    by_cases h1 : formatResultsSection "Exa Code Context" ers = "" <;>
      by_cases h2 : ans = "" <;>
        by_cases h3 : formatResultsSection "grep.app" grs = "" <;>
          by_cases h4 : formatResultsSection "Noodl" nrs = "" <;>
            simp [searchCode, exaCodeSearch, noodlSearch, hparse, cloneRepo, hmem, hexa,
              hdw, hgrep, hav, hexit, hparsed, renderReport, h1, h2, h3, h4, hdwne ans]

/-- C9 witness: with every source succeeding empty and no repo scope, the
report is the literal sentinel. -/
theorem searchCode_report_spec_witness :
    searchCode envAllEmpty "q" none = .ok "No results found." :=
  (searchCode_report_spec envAllEmpty "q").2.1 rfl rfl

end CaptainSearch
